import Mathlib

/-!
Verification development for the hyperliquid-rust-sdk client library.

This file gives a shallow embedding, in Lean 4, of the parts of the SDK
that the specification's claims are about:

* `format_float_string`     (src/providers/exchange.rs)
* the nonce validity predicate and generation scheme (modelled from the
  spec, since src/providers/nonce.rs itself is not part of the source
  drop; only its tests and callers are)
* `RateLimiter.check_weight` (src/providers/info.rs)
* `InfoProvider`'s `request` flow (src/providers/info.rs, as `info_request`)
* `hash_action`, `send_l1_action` and `post` (src/providers/exchange.rs)
* `ApproveAgent` EIP-712 data encoding (src/types/actions.rs); the
  `type_hash` helper is modelled from the spec since types/eip712.rs is
  not part of the source drop
* `approve_agent` / `approve_agent_new` action construction
  (src/providers/exchange.rs)

External collaborators (HTTP transport, MessagePack encoder, Keccak-256,
the secp256k1 signer, the system clock and the JSON string parser) are
taken as function parameters, exactly as the spec declares them out of
scope.  Machine floats (`f64`) in the rate limiter are idealised as
rationals; `u64` values are Nats with explicit mod where overflow can
matter.
-/

deriving instance DecidableEq for Except

/-- Error taxonomy of the SDK (errors.rs is not under src; the variants and
their payloads are reconstructed from their construction sites in
src/providers/exchange.rs and src/providers/info.rs and from spec section 7). -/
inductive HyperliquidError where
  | Network (reason : String)
  | Http (status : Nat) (body : String)
  | InvalidRequest (reason : String)
  | InvalidResponse (reason : String)
  | RateLimited (available : Nat) (required : Nat)
  deriving DecidableEq, Repr

/-- Minimal model of a serde_json value, used for the request payloads the
providers assemble.  Object fields are kept in insertion order. -/
inductive Json where
  | null
  | bool (b : Bool)
  | num (n : Nat)
  | str (s : String)
  | arr (elems : List Json)
  | obj (fields : List (String × Json))

/-- Model of http StatusCode::is_success: 2xx statuses. -/
def status_is_success (status : Nat) : Bool :=
  decide (200 ≤ status) && decide (status < 300)

/-- Two lowercase hex digits of a byte, as in hex::encode / {:x} rendering. -/
def byte_hex (b : Nat) : String :=
  String.mk [Nat.digitChar (b / 16 % 16), Nat.digitChar (b % 16)]

/-- Lowercase 0x-prefixed rendering of a 20-byte address. -/
def address_hex (addr : List Nat) : String :=
  "0x" ++ String.join (addr.map byte_hex)

/-- Zero-padded 64-hex-digit rendering of a 256-bit integer, as produced by
the signature serialization in `post` (src/providers/exchange.rs). -/
def hex64 (n : Nat) : String :=
  "0x" ++ String.mk (List.ofFn (fun i : Fin 64 => Nat.digitChar (n / 16 ^ (63 - i.1) % 16)))

/-- Embedding of `format_float_string` (src/providers/exchange.rs lines
82-97).  The input is the fixed-point rendering the source produces first
(format with 8 fractional digits); the function then pops trailing zero
characters, pops one trailing dot, and canonicalizes "-0" to "0". -/
def format_float_string (s : String) : String :=
  let cs1 := (s.data.reverse.dropWhile (fun c => c == '0')).reverse
  let cs2 := if cs1.getLast? = some '.' then cs1.dropLast else cs1
  let x := String.mk cs2
  if x = "-0" then "0" else x

/-- Modelled from the spec: `NonceManager::is_valid_nonce` lives in
src/providers/nonce.rs which is not part of the source drop (only
tests/nonce_test.rs and its caller in providers/exchange/managed.rs are).
Spec section 4.3: valid iff nonce is over two days old and under one day in
the future, strict at both ends; times are UNIX milliseconds. -/
def is_valid_nonce (nonce now : Nat) : Bool :=
  decide (now - 172800000 < nonce) && decide (nonce < now + 86400000)

/-- Modelled from the spec: `NonceManager::next_nonce` lives in
src/providers/nonce.rs which is not part of the source drop.  Spec section
4.3: nonce = base + offset with base the clock milliseconds at the call and
offset = (counter++) mod 1000.  Here `t k` is the clock reading observed by
the k-th call on one counter (counters start at `c0`, incremented on every
call), so the k-th returned nonce is `t k + (c0 + k) % 1000`. -/
def next_nonce (t : Nat → Nat) (c0 k : Nat) : Nat :=
  t k + (c0 + k) % 1000

/-- State of the token bucket of src/providers/info.rs (lines 30-45).  The
`last_refill` instant is externalised: `check_weight` below takes the
elapsed seconds since the previous call as an argument.  f64 tokens are
idealised as rationals. -/
structure RateLimiter where
  tokens : ℚ
  maxTokens : ℚ
  refillRate : ℚ
  deriving DecidableEq, Repr

/-- Embedding of `RateLimiter::new` (src/providers/info.rs lines 38-45). -/
def RateLimiter.new (maxTokens refillRate : Nat) : RateLimiter :=
  { tokens := maxTokens, maxTokens := maxTokens, refillRate := refillRate }

/-- Embedding of `RateLimiter::check_weight` (src/providers/info.rs lines
47-70): refill by elapsed * refill_rate, clamp to max_tokens, persist the
refilled level, then deduct the weight only on success.  The `available`
field reports the refilled level truncated to an unsigned integer, as the
`*tokens as u32` cast does for the nonnegative levels the bucket holds. -/
def check_weight (rl : RateLimiter) (elapsed : ℚ) (weight : Nat) :
    Except HyperliquidError Unit × RateLimiter :=
  let tokensToAdd := elapsed * rl.refillRate
  let refilled := min (rl.tokens + tokensToAdd) rl.maxTokens
  if (weight : ℚ) ≤ refilled then
    (Except.ok (), { rl with tokens := refilled - (weight : ℚ) })
  else
    (Except.error (HyperliquidError.RateLimited (Int.toNat ⌊refilled⌋) weight),
     { rl with tokens := refilled })

/-- Modelled from the spec: the exchange response shape (types/responses.rs
is not under src).  Spec section 6: either status "ok" with a typed data
payload or status "err" with a reason string. -/
inductive ExchangeResponseStatus where
  | ok (responseType : String) (statuses : List String)
  | err (reason : String)
  deriving DecidableEq, Repr

/-- Embedding of `InfoProvider::request` (src/providers/info.rs lines
109-148).  `http` is the POST primitive returning (status, body); `parse`
is the body deserializer.  The first component of the result is the list of
POSTs performed during the call, in order; note that the flow consults no
rate limiter and posts unconditionally.  A non-success status yields
`Http`; a body that fails to parse under a success status yields the
parse-error kind (`InvalidResponse` in the taxonomy of spec section 7). -/
def info_request {α : Type} (requestJson : Json) (http : Json → Nat × String)
    (parse : String → Except String α) : List Json × Except HyperliquidError α :=
  let statusBody := http requestJson
  ([requestJson],
    if status_is_success statusBody.1 = false then
      Except.error (HyperliquidError.Http statusBody.1 statusBody.2)
    else
      match parse statusBody.2 with
      | Except.ok v => Except.ok v
      | Except.error e => Except.error (HyperliquidError.InvalidResponse e))

/-- Constants from constants.rs (not under src; values fixed by spec
sections 3 and 9: both L1 chain ids are 1337, agent sources are "a" and
"b"). -/
def CHAIN_ID_MAINNET : Nat := 1337

/-- Testnet L1 chain id; intentionally equal to the mainnet value. -/
def CHAIN_ID_TESTNET : Nat := 1337

/-- Mainnet L1 agent source. -/
def AGENT_SOURCE_MAINNET : String := "a"

/-- Testnet L1 agent source. -/
def AGENT_SOURCE_TESTNET : String := "b"

/-- Embedding of `RawExchangeProvider::infer_network` (src/providers/
exchange.rs lines 113-119): the flag stands for endpoint.contains("testnet"). -/
def infer_network (isTestnet : Bool) : Nat × String :=
  if isTestnet then (CHAIN_ID_TESTNET, AGENT_SOURCE_TESTNET)
  else (CHAIN_ID_MAINNET, AGENT_SOURCE_MAINNET)

/-- Configuration of a `RawExchangeProvider` relevant to submission:
endpoint network, optional vault, agent and builder addresses (addresses as
20-byte lists). -/
structure ExchangeConfig where
  isTestnet : Bool
  vaultAddress : Option (List Nat)
  agent : Option (List Nat)
  builder : Option (List Nat)

/-- The action tags accepted by the `ActionWrapper` match in `hash_action`
(src/providers/exchange.rs lines 1478-1545), in source order.  serde's
camelCase renaming makes each wrapper variant's "type" discriminant equal
to the matched tag string itself. -/
def knownActionTags : List String :=
  ["order", "cancel", "cancelByCloid", "batchModify", "updateLeverage",
   "updateIsolatedMargin", "usdSend", "spotSend", "spotUser", "vaultTransfer",
   "setReferrer", "approveAgent", "approveBuilderFee", "withdraw3",
   "scheduleCancel", "createSubAccount", "subAccountTransfer",
   "subAccountSpotTransfer", "usdClassTransfer", "twapOrder", "twapCancel",
   "agentEnableDexAbstraction", "spotDeployRegisterToken",
   "spotDeployUserGenesis", "spotDeployFreezeUser",
   "spotDeployEnableFreezePrivilege", "spotDeployRevokeFreezePrivilege",
   "spotDeployEnableQuoteToken", "spotDeployGenesis", "spotDeployRegisterSpot",
   "spotDeployRegisterHyperliquidity", "spotDeploySetDeployerTradingFeeShare",
   "perpDeployRegisterAsset", "perpDeploySetOracle", "cSignerUnjailSelf",
   "cSignerJailSelf", "cValidatorRegister", "cValidatorChangeProfile",
   "cValidatorUnregister", "tokenDelegate", "useBigBlocks", "noop"]

/-- The eight big-endian bytes of a u64, as u64::to_be_bytes produces. -/
def u64_be_bytes (n : Nat) : List Nat :=
  [n / 2 ^ 56 % 256, n / 2 ^ 48 % 256, n / 2 ^ 40 % 256, n / 2 ^ 32 % 256,
   n / 2 ^ 24 % 256, n / 2 ^ 16 % 256, n / 2 ^ 8 % 256, n % 256]

/-- The vault suffix appended in `hash_action`: byte 1 followed by the
vault address bytes when a vault is set, the single byte 0 otherwise. -/
def vault_flag_bytes (vaultAddress : Option (List Nat)) : List Nat :=
  match vaultAddress with
  | some v => 1 :: v
  | none => [0]

/-- Embedding of `RawExchangeProvider::hash_action` (src/providers/
exchange.rs lines 1414-1560).  `keccak` is the external Keccak-256;
`msgpackNamed` is the external rmp_serde::to_vec_named applied to the
tagged wrapper, abstracted as a function of the discriminant string and the
action value.  Unknown tags fail with InvalidRequest, as the final match
arm does. -/
def hash_action {α : Type} (keccak : List Nat → List Nat)
    (msgpackNamed : String → α → List Nat) (actionType : String) (action : α)
    (timestamp : Nat) (vaultAddress : Option (List Nat)) :
    Except HyperliquidError (List Nat) :=
  if actionType ∈ knownActionTags then
    Except.ok (keccak (msgpackNamed actionType action ++ u64_be_bytes timestamp ++
      vault_flag_bytes vaultAddress))
  else
    Except.error (HyperliquidError.InvalidRequest ("Unknown action type: " ++ actionType))

/-- The inner `Agent` L1 action (src/types/actions.rs lines 201-209). -/
structure AgentL1 where
  source : String
  connectionId : List Nat
  deriving DecidableEq, Repr

/-- The data `send_l1_action` hands to the wire: the signed inner agent,
the signature, the action JSON actually posted and the nonce. -/
structure L1Submission where
  agent : AgentL1
  signature : Nat
  finalAction : Json
  nonce : Nat

/-- Insertion of the "type" tag into a serialized action, as the
`map.insert("type", ...)` step of `send_l1_action` does on JSON objects. -/
def insert_type_tag (actionValue : Json) (actionType : String) : Json :=
  match actionValue with
  | Json.obj fields => Json.obj (fields ++ [("type", Json.str actionType)])
  | other => other

/-- Embedding of `RawExchangeProvider::send_l1_action` (src/providers/
exchange.rs lines 1562-1603).  `toJsonValue` is serde_json::to_value;
`signHash` abstracts the EIP-712 hashing of the Agent plus the signer.  The
nonce argument is the clock value `current_nonce` read at the start of the
call.  Note the order of operations taken from the source: the connection
id and signature are computed from the unwrapped action first, and the
agent envelope is applied to the posted JSON afterwards. -/
def send_l1_action {α : Type} (keccak : List Nat → List Nat)
    (msgpackNamed : String → α → List Nat) (toJsonValue : α → Json)
    (signHash : AgentL1 → Nat) (cfg : ExchangeConfig) (actionType : String)
    (action : α) (nonce : Nat) : Except HyperliquidError L1Submission :=
  match hash_action keccak msgpackNamed actionType action nonce cfg.vaultAddress with
  | Except.error e => Except.error e
  | Except.ok connectionId =>
    let agentSource := (infer_network cfg.isTestnet).2
    let agent : AgentL1 := { source := agentSource, connectionId := connectionId }
    let signature := signHash agent
    let actionValue := insert_type_tag (toJsonValue action) actionType
    let finalAction :=
      match cfg.agent with
      | some agentAddress =>
        Json.obj [("type", Json.str "agent"),
                  ("agentAddress", Json.str (address_hex agentAddress)),
                  ("agentAction", actionValue),
                  ("source", Json.str agentSource)]
      | none => actionValue
    Except.ok { agent := agent, signature := signature, finalAction := finalAction,
                nonce := nonce }

/-- The "type" discriminant of a serialized action object, when present. -/
def Json.typeTag : Json → Option String
  | Json.obj fields =>
    match fields.lookup "type" with
    | some (Json.str t) => some t
    | _ => none
  | _ => none

/-- The request body `post` assembles (src/providers/exchange.rs lines
1655-1664): action, signature object with 0x-padded r and s, nonce, and
vaultAddress (null when absent). -/
def post_payload (action : Json) (sigR sigS sigV nonce : Nat)
    (vaultAddress : Option (List Nat)) : Json :=
  Json.obj
    [("action", action),
     ("signature", Json.obj [("r", Json.str (hex64 sigR)), ("s", Json.str (hex64 sigS)),
                             ("v", Json.num sigV)]),
     ("nonce", Json.num nonce),
     ("vaultAddress",
       match vaultAddress with
       | some v => Json.str (address_hex v)
       | none => Json.null)]

/-- Embedding of `RawExchangeProvider::post` (src/providers/exchange.rs
lines 1647-1705).  `http` is the POST primitive returning (status, body);
`parse` is serde_json deserialization of the body into
ExchangeResponseStatus, returning the serde error message on failure.  As
in the source, the body is always parsed first; only when parsing fails
does the HTTP status pick between the Http and InvalidResponse errors. -/
def post (action : Json) (sigR sigS sigV nonce : Nat) (vaultAddress : Option (List Nat))
    (http : Json → Nat × String)
    (parse : String → Except String ExchangeResponseStatus) :
    Except HyperliquidError ExchangeResponseStatus :=
  let payload := post_payload action sigR sigS sigV nonce vaultAddress
  let statusBody := http payload
  match parse statusBody.2 with
  | Except.ok resp => Except.ok resp
  | Except.error e =>
    if status_is_success statusBody.1 then
      Except.error (HyperliquidError.InvalidResponse
        ("Failed to parse exchange response: " ++ e))
    else
      Except.error (HyperliquidError.Http statusBody.1 statusBody.2)

/-- Abstract EIP-712 primitive encoders (types/eip712.rs is not under src;
the spec declares keccak and the per-type `encode_value` instances as the
external EIP-712 field encoding). -/
structure Eip712Encoders where
  keccakString : String → List Nat
  encodeString : String → List Nat
  encodeAddress : List Nat → List Nat
  encodeU64 : Nat → List Nat

/-- Modelled from the spec: `type_hash` of types/eip712.rs (not under src).
Spec section 4.2: hash the type string, prefixed with
"HyperliquidTransaction:" exactly when USE_PREFIX is true. -/
def type_hash (keccakString : String → List Nat) (usePfx : Bool)
    (typeString : String) : List Nat :=
  keccakString ((if usePfx then "HyperliquidTransaction:" else "") ++ typeString)

/-- The `ApproveAgent` user action (src/types/actions.rs lines 112-122). -/
structure ApproveAgent where
  signatureChainId : Nat
  hyperliquidChain : String
  agentAddress : List Nat
  agentName : Option String
  nonce : Nat
  deriving DecidableEq, Repr

/-- TYPE_STRING of ApproveAgent (src/types/actions.rs line 146). -/
def ApproveAgent.TYPE_STRING : String :=
  "ApproveAgent(string hyperliquidChain,address agentAddress,string agentName,uint64 nonce)"

/-- Embedding of `ApproveAgent::encode_data` (src/types/actions.rs lines
153-164): type hash, then the encoded chain label, agent address, agent
name with None replaced by the default empty string, and nonce. -/
def ApproveAgent.encode_data (E : Eip712Encoders) (a : ApproveAgent) : List Nat :=
  type_hash E.keccakString true ApproveAgent.TYPE_STRING
    ++ E.encodeString a.hyperliquidChain
    ++ E.encodeAddress a.agentAddress
    ++ E.encodeString (a.agentName.getD "")
    ++ E.encodeU64 a.nonce

/-- Embedding of `serialize_chain_id` (src/types/actions.rs lines 134-143):
the {:#x} rendering, 0x followed by lowercase hex digits. -/
def serialize_chain_id (chainId : Nat) : String :=
  "0x" ++ String.mk (Nat.toDigits 16 chainId)

/-- Embedding of the action construction in `RawExchangeProvider::
approve_agent` (src/providers/exchange.rs lines 699-720): the chain id is
the constant 421614 and the chain label is chosen by comparing the inferred
L1 chain id against CHAIN_ID_MAINNET. -/
def approve_agent_action (isTestnet : Bool) (agentAddress : List Nat)
    (agentName : Option String) (nonce : Nat) : ApproveAgent :=
  let chainId := (infer_network isTestnet).1
  let chain := if chainId = CHAIN_ID_MAINNET then "Mainnet" else "Testnet"
  { signatureChainId := 421614, hyperliquidChain := chain,
    agentAddress := agentAddress, agentName := agentName, nonce := nonce }

/-- Embedding of the action construction in `RawExchangeProvider::
approve_agent_new` (src/providers/exchange.rs lines 724-766): the chain id
is the constant 421614 and the chain label tests the endpoint string
directly; the freshly minted agent has no name. -/
def approve_agent_new_action (isTestnet : Bool) (agentAddress : List Nat)
    (nonce : Nat) : ApproveAgent :=
  let chain := if isTestnet then "Testnet" else "Mainnet"
  { signatureChainId := 421614, hyperliquidChain := chain,
    agentAddress := agentAddress, agentName := none, nonce := nonce }

/-- The rate-limiter state after k sequential `check_weight(1)` calls with
no elapsed time, starting from the bucket `RawExchangeProvider::new` builds
with the spec's scenario parameters (capacity 100, refill 10/s). -/
def drain : Nat → RateLimiter
  | 0 => RateLimiter.new 100 10
  | k + 1 => (check_weight (drain k) 0 1).2

/-! ## Theorems -/

/-- Claim C5 counterexample: the claim asserts strict monotonicity "for any
number and timing of calls, including many calls within the same
millisecond where the offset is (counter++) mod 1000".  With 1001 calls
inside one millisecond (the clock reading constant), the offset wraps
modulo 1000: the 1001st nonce is not greater than the 1000th. -/
theorem nonce_monotonic_counterexample :
    ¬ (next_nonce (fun _ => 1700000000000) 0 999 <
        next_nonce (fun _ => 1700000000000) 0 1000) := by
  decide

/-- Claim C5 (amended): on one counter with a nondecreasing clock, a
later nonce is strictly greater than an earlier one provided the counter
offset did not wrap modulo 1000 between the two calls, or the clock
advanced by at least 1000 milliseconds; with 1000 or more calls inside one
millisecond the offset wraps and monotonicity can fail. -/
theorem nonce_monotonic_claim (t : Nat → Nat) (c0 i j : Nat)
    (hmono : ∀ a b, a ≤ b → t a ≤ t b) (hij : i < j)
    (hnowrap : (c0 + i) % 1000 < (c0 + j) % 1000 ∨ t i + 1000 ≤ t j) :
    next_nonce t c0 i < next_nonce t c0 j := by
  have ht : t i ≤ t j := hmono i j (Nat.le_of_lt hij)
  have hoi : (c0 + i) % 1000 < 1000 := Nat.mod_lt _ (by omega)
  have hoj : (c0 + j) % 1000 < 1000 := Nat.mod_lt _ (by omega)
  unfold next_nonce
  rcases hnowrap with h | h
  · omega
  · omega

/-- Witness for the amended C5 theorem at a concrete clock and counter. -/
theorem nonce_monotonic_claim_witness :
    (∀ a b : Nat, a ≤ b → (fun _ : Nat => 5) a ≤ (fun _ : Nat => 5) b) ∧
    (0 : Nat) < 1 ∧
    ((0 + 0) % 1000 < (0 + 1) % 1000 ∨ (fun _ : Nat => 5) 0 + 1000 ≤ (fun _ : Nat => 5) 1) ∧
    next_nonce (fun _ => 5) 0 0 < next_nonce (fun _ => 5) 0 1 :=
  ⟨fun _ _ _ => Nat.le_refl 5, by decide, Or.inl (by decide),
   nonce_monotonic_claim (fun _ => 5) 0 0 1 (fun _ _ _ => Nat.le_refl 5) (by decide)
     (Or.inl (by decide))⟩

/-- Claim C6: the nonce validity predicate holds exactly on the open
interval (now - 2 days, now + 1 day) of milliseconds, and both exact
boundaries are invalid while one millisecond inside either boundary is
valid. -/
theorem nonce_validity_claim (nonce now : Nat) (h : 172800000 ≤ now) :
    (is_valid_nonce nonce now = true ↔
      ((now : ℤ) - 172800000 < (nonce : ℤ) ∧ (nonce : ℤ) < (now : ℤ) + 86400000)) ∧
    is_valid_nonce (now - 172800000) now = false ∧
    is_valid_nonce (now - 172800000 + 1) now = true ∧
    is_valid_nonce (now + 86400000) now = false ∧
    is_valid_nonce (now + 86400000 - 1) now = true := by
  unfold is_valid_nonce
  refine ⟨?_, ?_, ?_, ?_, ?_⟩ <;>
    simp only [Bool.and_eq_true, decide_eq_true_eq, Bool.and_eq_false_iff,
      decide_eq_false_iff_not, not_lt] <;> omega

/-- Witness for the C6 theorem at a concrete clock value. -/
theorem nonce_validity_claim_witness :
    172800000 ≤ 1735689600000 ∧
    ((is_valid_nonce 1735689600001 1735689600000 = true ↔
      ((1735689600000 : ℤ) - 172800000 < (1735689600001 : ℤ) ∧
        (1735689600001 : ℤ) < (1735689600000 : ℤ) + 86400000)) ∧
    is_valid_nonce (1735689600000 - 172800000) 1735689600000 = false ∧
    is_valid_nonce (1735689600000 - 172800000 + 1) 1735689600000 = true ∧
    is_valid_nonce (1735689600000 + 86400000) 1735689600000 = false ∧
    is_valid_nonce (1735689600000 + 86400000 - 1) 1735689600000 = true) :=
  ⟨by decide, nonce_validity_claim 1735689600001 1735689600000 (by decide)⟩

/-- Claim C8: the EIP-712 type hash of ApproveAgent is the keccak of the
prefixed type string "HyperliquidTransaction:ApproveAgent(string
hyperliquidChain,address agentAddress,string agentName,uint64 nonce)", and
an absent agent name is encoded as the empty string, so it hashes
identically to a present empty-string name. -/
theorem approve_agent_typehash_claim (E : Eip712Encoders)
    (signatureChainId : Nat) (hyperliquidChain : String) (agentAddress : List Nat)
    (nonce : Nat) :
    type_hash E.keccakString true ApproveAgent.TYPE_STRING =
      E.keccakString
        "HyperliquidTransaction:ApproveAgent(string hyperliquidChain,address agentAddress,string agentName,uint64 nonce)" ∧
    ApproveAgent.encode_data E
        { signatureChainId := signatureChainId, hyperliquidChain := hyperliquidChain,
          agentAddress := agentAddress, agentName := none, nonce := nonce } =
      ApproveAgent.encode_data E
        { signatureChainId := signatureChainId, hyperliquidChain := hyperliquidChain,
          agentAddress := agentAddress, agentName := some "", nonce := nonce } := by
  constructor
  · exact congrArg E.keccakString (by decide)
  · rfl

/-- Claim C10: both approve-agent entry points pin signature_chain_id to
421614 on every network, rendered "0x66eee" by serialize_chain_id; the
network choice can affect only the hyperliquid_chain label, never the
chain id.  (In approve_agent itself even the label is the constant
"Mainnet", because the branch compares the inferred L1 chain id with
CHAIN_ID_MAINNET and both network constants are 1337; approve_agent_new
tests the endpoint string and labels per network.) -/
theorem approve_agent_chain_id_claim (net : Bool) (agentAddress : List Nat)
    (agentName : Option String) (nonce : Nat) :
    (approve_agent_action net agentAddress agentName nonce).signatureChainId = 421614 ∧
    (approve_agent_new_action net agentAddress nonce).signatureChainId = 421614 ∧
    serialize_chain_id 421614 = "0x66eee" ∧
    (∀ net2 : Bool,
      { approve_agent_action net agentAddress agentName nonce with
          hyperliquidChain :=
            (approve_agent_action net2 agentAddress agentName nonce).hyperliquidChain } =
        approve_agent_action net2 agentAddress agentName nonce) ∧
    (∀ net2 : Bool,
      { approve_agent_new_action net agentAddress nonce with
          hyperliquidChain :=
            (approve_agent_new_action net2 agentAddress nonce).hyperliquidChain } =
        approve_agent_new_action net2 agentAddress nonce) ∧
    (approve_agent_new_action net agentAddress nonce).hyperliquidChain =
      (if net then "Testnet" else "Mainnet") ∧
    (approve_agent_action net agentAddress agentName nonce).hyperliquidChain = "Mainnet" := by
  refine ⟨rfl, rfl, by decide, ?_, ?_, ?_, ?_⟩
  · intro net2
    cases net <;> cases net2 <;> rfl
  · intro net2
    cases net <;> cases net2 <;> rfl
  · cases net <;> rfl
  · cases net <;> rfl

/-- Helper: a zero-elapsed check_weight call that has enough tokens
deducts the weight and succeeds. -/
theorem check_weight_ok_zero (tk mx rr : ℚ) (w : Nat) (h1 : tk ≤ mx)
    (h2 : (w : ℚ) ≤ tk) :
    check_weight { tokens := tk, maxTokens := mx, refillRate := rr } 0 w =
      (Except.ok (), { tokens := tk - w, maxTokens := mx, refillRate := rr }) := by
  unfold check_weight
  simp only [zero_mul, add_zero]
  rw [min_eq_left h1, if_pos h2]

/-- Helper: a zero-elapsed check_weight call without enough tokens fails
with the truncated level and required weight, deducting nothing. -/
theorem check_weight_fail_zero (tk mx rr : ℚ) (w : Nat) (h1 : tk ≤ mx)
    (h2 : ¬ ((w : ℚ) ≤ tk)) :
    check_weight { tokens := tk, maxTokens := mx, refillRate := rr } 0 w =
      (Except.error (HyperliquidError.RateLimited (Int.toNat ⌊tk⌋) w),
       { tokens := tk, maxTokens := mx, refillRate := rr }) := by
  unfold check_weight
  simp only [zero_mul, add_zero]
  rw [min_eq_left h1, if_neg h2]

/-- Helper: after k ≤ 100 sequential unit-weight calls with no elapsed
time, the scenario bucket holds 100 - k tokens. -/
theorem drain_eq : ∀ k : Nat, k ≤ 100 →
    drain k = { tokens := (100 : ℚ) - k, maxTokens := 100, refillRate := 10 }
  | 0, _ => by
    simp [drain, RateLimiter.new]
  | (k + 1), hk => by
    have ih := drain_eq k (by omega)
    have hk99 : (k : ℚ) ≤ 99 := by exact_mod_cast (by omega : k ≤ 99)
    have hstep := check_weight_ok_zero ((100 : ℚ) - k) 100 10 1
      (by linarith) (by push_cast; linarith)
    simp only [drain, ih, hstep]
    congr 1
    push_cast
    ring

/-- Helper: one second of refill at rate 10 restores the empty scenario
bucket to 10 tokens, enough for a weight-10 call. -/
theorem check_weight_refill_ten :
    check_weight { tokens := (0 : ℚ), maxTokens := 100, refillRate := 10 } 1 10 =
      (Except.ok (), { tokens := (0 : ℚ), maxTokens := 100, refillRate := 10 }) := by
  unfold check_weight
  simp only [one_mul, zero_add]
  rw [min_eq_left (by norm_num : (10 : ℚ) ≤ 100),
    if_pos (by norm_num : ((10 : Nat) : ℚ) ≤ 10)]
  norm_num

/-- Claim C7: check_weight first refills by elapsed seconds times the
refill rate clamped to capacity, then deducts the weight and succeeds when
the tokens suffice, and otherwise fails with RateLimited carrying the
truncated available level and the required weight while deducting nothing;
zero-weight calls always succeed; and in the concrete scenario with
capacity 100 and refill 10/s, 100 sequential check(1) calls succeed, the
101st fails with available 0 and required 1, and after one second of
refill check(10) succeeds. -/
theorem rate_limiter_claim (rl : RateLimiter) (elapsed : ℚ) (weight : Nat)
    (helapsed : 0 ≤ elapsed) (htokens : 0 ≤ rl.tokens) (hmax : 0 ≤ rl.maxTokens)
    (hrefill : 0 ≤ rl.refillRate) :
    (check_weight rl elapsed weight =
      if (weight : ℚ) ≤ min (rl.tokens + elapsed * rl.refillRate) rl.maxTokens then
        (Except.ok (),
         { rl with tokens := min (rl.tokens + elapsed * rl.refillRate) rl.maxTokens
             - (weight : ℚ) })
      else
        (Except.error (HyperliquidError.RateLimited
            (Int.toNat ⌊min (rl.tokens + elapsed * rl.refillRate) rl.maxTokens⌋) weight),
         { rl with tokens := min (rl.tokens + elapsed * rl.refillRate) rl.maxTokens })) ∧
    (check_weight rl elapsed 0).1 = Except.ok () ∧
    (∀ k : Nat, k < 100 → (check_weight (drain k) 0 1).1 = Except.ok ()) ∧
    (drain 100).tokens = 0 ∧
    (check_weight (drain 100) 0 1).1 =
      Except.error (HyperliquidError.RateLimited 0 1) ∧
    (check_weight (drain 100) 1 10).1 = Except.ok () := by
  have hnn : (0 : ℚ) ≤ min (rl.tokens + elapsed * rl.refillRate) rl.maxTokens :=
    le_min (add_nonneg htokens (mul_nonneg helapsed hrefill)) hmax
  have h100 := drain_eq 100 (by omega)
  refine ⟨rfl, ?_, ?_, ?_, ?_, ?_⟩
  · unfold check_weight
    rw [if_pos (by simpa using hnn)]
  · intro k hk
    rw [drain_eq k (by omega)]
    have hkq : (k : ℚ) ≤ 99 := by exact_mod_cast (by omega : k ≤ 99)
    rw [check_weight_ok_zero ((100 : ℚ) - k) 100 10 1 (by linarith)
      (by push_cast; linarith)]
  · rw [h100]
    norm_num
  · rw [h100]
    norm_num
    rw [check_weight_fail_zero (0 : ℚ) 100 10 1 (by norm_num) (by norm_num)]
    norm_num
  · rw [h100]
    norm_num
    rw [check_weight_refill_ten]

/-- Witness for the C7 theorem at the scenario bucket. -/
theorem rate_limiter_claim_witness :
    (0 : ℚ) ≤ 0 ∧ (0 : ℚ) ≤ (RateLimiter.new 100 10).tokens ∧
    (0 : ℚ) ≤ (RateLimiter.new 100 10).maxTokens ∧
    (0 : ℚ) ≤ (RateLimiter.new 100 10).refillRate ∧
    ((check_weight (RateLimiter.new 100 10) 0 1 =
      if ((1 : Nat) : ℚ) ≤ min ((RateLimiter.new 100 10).tokens
          + 0 * (RateLimiter.new 100 10).refillRate) (RateLimiter.new 100 10).maxTokens then
        (Except.ok (),
         { RateLimiter.new 100 10 with
             tokens := min ((RateLimiter.new 100 10).tokens
               + 0 * (RateLimiter.new 100 10).refillRate) (RateLimiter.new 100 10).maxTokens
               - ((1 : Nat) : ℚ) })
      else
        (Except.error (HyperliquidError.RateLimited
            (Int.toNat ⌊min ((RateLimiter.new 100 10).tokens
              + 0 * (RateLimiter.new 100 10).refillRate)
              (RateLimiter.new 100 10).maxTokens⌋) 1),
         { RateLimiter.new 100 10 with
             tokens := min ((RateLimiter.new 100 10).tokens
               + 0 * (RateLimiter.new 100 10).refillRate)
               (RateLimiter.new 100 10).maxTokens })) ∧
    (check_weight (RateLimiter.new 100 10) 0 0).1 = Except.ok () ∧
    (∀ k : Nat, k < 100 → (check_weight (drain k) 0 1).1 = Except.ok ()) ∧
    (drain 100).tokens = 0 ∧
    (check_weight (drain 100) 0 1).1 =
      Except.error (HyperliquidError.RateLimited 0 1) ∧
    (check_weight (drain 100) 1 10).1 = Except.ok ()) :=
  ⟨le_refl 0, by norm_num [RateLimiter.new], by norm_num [RateLimiter.new],
   by norm_num [RateLimiter.new],
   rate_limiter_claim (RateLimiter.new 100 10) 0 1 (le_refl 0)
     (by norm_num [RateLimiter.new]) (by norm_num [RateLimiter.new])
     (by norm_num [RateLimiter.new])⟩

/-- Claim C4 counterexample: with the shared token bucket fully empty (so
that a weight-1 check fails with RateLimited), a concrete info query still
performs its HTTP POST and returns the parsed value; the info client's
request flow never consults the bucket. -/
theorem info_rate_limit_counterexample :
    (check_weight { tokens := 0, maxTokens := 100, refillRate := 10 } 0 1).1 =
      Except.error (HyperliquidError.RateLimited 0 1) ∧
    (info_request (Json.obj [("type", Json.str "allMids")]) (fun _ => (200, "{}"))
        (fun _ => Except.ok (0 : Nat))).1 = [Json.obj [("type", Json.str "allMids")]] ∧
    (info_request (Json.obj [("type", Json.str "allMids")]) (fun _ => (200, "{}"))
        (fun _ => Except.ok (0 : Nat))).2 = Except.ok 0 := by
  refine ⟨?_, rfl, rfl⟩
  rw [check_weight_fail_zero (0 : ℚ) 100 10 1 (by norm_num) (by norm_num)]
  norm_num

/-- Claim C4 (amended): info-client queries do not pass through the rate
limiter: for every request, HTTP transport and parser, the request flow
performs exactly the one HTTP POST of the query body regardless of any
token-bucket state, and its result is never a RateLimited error (the
token bucket is consulted only by the exchange client's order paths). -/
theorem info_request_ungated_claim {α : Type} (requestJson : Json)
    (http : Json → Nat × String) (parse : String → Except String α) :
    (info_request requestJson http parse).1 = [requestJson] ∧
    ∀ available required : Nat,
      (info_request requestJson http parse).2 ≠
        Except.error (HyperliquidError.RateLimited available required) := by
  constructor
  · rfl
  · intro available required
    unfold info_request
    dsimp only
    split
    · simp
    · split <;> simp

/-- Claim C3: for every exchange POST round trip, the response body is
parsed as ExchangeResponseStatus first, regardless of the HTTP status; a
parsed value is returned even under a non-2xx status; when parsing fails
the call returns Http with status and body under a non-success status and
InvalidResponse with the parse reason under a success status. -/
theorem exchange_post_parse_claim (action : Json) (sigR sigS sigV nonce : Nat)
    (vaultAddress : Option (List Nat)) (http : Json → Nat × String)
    (parse : String → Except String ExchangeResponseStatus) (status : Nat) (body : String)
    (hhttp : http (post_payload action sigR sigS sigV nonce vaultAddress) = (status, body)) :
    post action sigR sigS sigV nonce vaultAddress http parse =
      match parse body with
      | Except.ok resp => Except.ok resp
      | Except.error e =>
        if status_is_success status then
          Except.error (HyperliquidError.InvalidResponse
            ("Failed to parse exchange response: " ++ e))
        else
          Except.error (HyperliquidError.Http status body) := by
  unfold post
  dsimp only
  rw [hhttp]

/-- Witness for the C3 theorem: a concrete non-2xx round trip whose body
does not parse surfaces as Http with the status and body. -/
theorem exchange_post_parse_claim_witness :
    ((fun _ : Json => ((500 : Nat), "oops"))
        (post_payload Json.null 1 2 27 77 none) = (500, "oops")) ∧
    (post Json.null 1 2 27 77 none (fun _ => (500, "oops"))
        (fun _ => Except.error "expected value") =
      match Except.error "expected value" with
      | Except.ok resp => Except.ok resp
      | Except.error e =>
        if status_is_success 500 then
          Except.error (HyperliquidError.InvalidResponse
            ("Failed to parse exchange response: " ++ e))
        else
          Except.error (HyperliquidError.Http 500 "oops")) :=
  ⟨rfl, exchange_post_parse_claim Json.null 1 2 27 77 none (fun _ => (500, "oops"))
    (fun _ => Except.error "expected value") 500 "oops" rfl⟩

/-- Claim C1: for every L1 action submitted with a known action tag, the
connection id signed as the inner Agent is the keccak of the named-form
MessagePack encoding of the tagged action, followed by the nonce as 8
big-endian bytes, followed by byte 1 and the vault address when a vault is
set and the single byte 0 otherwise; the nonce suffix really is the 8-byte
big-endian rendering of the nonce modulo 2^64. -/
theorem connection_id_hash_claim {α : Type} (keccak : List Nat → List Nat)
    (msgpackNamed : String → α → List Nat) (toJsonValue : α → Json)
    (signHash : AgentL1 → Nat) (cfg : ExchangeConfig) (actionType : String)
    (action : α) (nonce : Nat) (h : actionType ∈ knownActionTags) :
    (send_l1_action keccak msgpackNamed toJsonValue signHash cfg actionType
        action nonce).map (fun s => s.agent.connectionId) =
      Except.ok (keccak (msgpackNamed actionType action ++ u64_be_bytes nonce ++
        vault_flag_bytes cfg.vaultAddress)) ∧
    vault_flag_bytes cfg.vaultAddress =
      (match cfg.vaultAddress with
       | some v => 1 :: v
       | none => [0]) ∧
    (u64_be_bytes nonce).length = 8 ∧
    (u64_be_bytes nonce).foldl (fun acc b => 256 * acc + b) 0 = nonce % 2 ^ 64 ∧
    (∀ b ∈ u64_be_bytes nonce, b < 256) := by
  refine ⟨?_, rfl, rfl, ?_, ?_⟩
  · unfold send_l1_action hash_action
    rw [if_pos h]
    rfl
  · norm_num [u64_be_bytes, List.foldl]
    omega
  · intro b hb
    simp only [u64_be_bytes, List.mem_cons, List.not_mem_nil, or_false] at hb
    rcases hb with rfl | rfl | rfl | rfl | rfl | rfl | rfl | rfl <;>
      exact Nat.mod_lt _ (by norm_num)

/-- Witness for the C1 theorem with the "order" tag, identity keccak and a
constant MessagePack oracle. -/
theorem connection_id_hash_claim_witness :
    ("order" ∈ knownActionTags) ∧
    ((send_l1_action id (fun _ _ => ([55] : List Nat)) (fun _ => Json.null)
        (fun _ => 0) ⟨false, none, none, none⟩ "order" () 3).map
        (fun s => s.agent.connectionId) =
      Except.ok ([55] ++ u64_be_bytes 3 ++ [0]) ∧
    vault_flag_bytes none = [0] ∧
    (u64_be_bytes 3).length = 8 ∧
    (u64_be_bytes 3).foldl (fun acc b => 256 * acc + b) 0 = 3 % 2 ^ 64 ∧
    (∀ b ∈ u64_be_bytes 3, b < 256)) :=
  ⟨by decide, connection_id_hash_claim id (fun _ _ => ([55] : List Nat))
    (fun _ => Json.null) (fun _ => 0) ⟨false, none, none, none⟩ "order" () 3 (by decide)⟩

/-- Claim C2 counterexample: two raw clients differing only in the
configured agent address (one set, one absent) submit the same concrete L1
action.  Their posted action JSONs differ — one is the agent envelope, the
other the bare tagged action — yet the signatures are identical, so the
outer signature is not computed over the wrapped action: the wrap happens
after signing. -/
theorem agent_wrap_counterexample :
    ((send_l1_action id (fun _ _ => ([7] : List Nat)) (fun _ => Json.obj [])
        (fun ag => ag.connectionId.foldl (fun acc b => acc + b) 0)
        ⟨true, none, some (List.replicate 20 17), none⟩ "noop" () 5).map
        (fun s => s.signature) =
      (send_l1_action id (fun _ _ => ([7] : List Nat)) (fun _ => Json.obj [])
        (fun ag => ag.connectionId.foldl (fun acc b => acc + b) 0)
        ⟨true, none, none, none⟩ "noop" () 5).map (fun s => s.signature)) ∧
    ((send_l1_action id (fun _ _ => ([7] : List Nat)) (fun _ => Json.obj [])
        (fun ag => ag.connectionId.foldl (fun acc b => acc + b) 0)
        ⟨true, none, some (List.replicate 20 17), none⟩ "noop" () 5).map
        (fun s => s.finalAction.typeTag) = Except.ok (some "agent")) ∧
    ((send_l1_action id (fun _ _ => ([7] : List Nat)) (fun _ => Json.obj [])
        (fun ag => ag.connectionId.foldl (fun acc b => acc + b) 0)
        ⟨true, none, none, none⟩ "noop" () 5).map
        (fun s => s.finalAction.typeTag) = Except.ok (some "noop")) := by
  refine ⟨rfl, rfl, rfl⟩

/-- Claim C2 (amended): when an agent address is configured, the typed
action is wrapped into the agent envelope after signing and only for the
POST body: the signature and the signed inner Agent are exactly those
produced without any agent configured (computed from the unwrapped
action's connection id), and the posted action is the agent envelope
around the action JSON that would otherwise be posted. -/
theorem agent_wrap_after_signing_claim {α : Type} (keccak : List Nat → List Nat)
    (msgpackNamed : String → α → List Nat) (toJsonValue : α → Json)
    (signHash : AgentL1 → Nat) (cfg : ExchangeConfig) (agentAddress : List Nat)
    (actionType : String) (action : α) (nonce : Nat) :
    ((send_l1_action keccak msgpackNamed toJsonValue signHash
        { cfg with agent := some agentAddress } actionType action nonce).map
        (fun s => s.signature) =
      (send_l1_action keccak msgpackNamed toJsonValue signHash
        { cfg with agent := none } actionType action nonce).map
        (fun s => s.signature)) ∧
    ((send_l1_action keccak msgpackNamed toJsonValue signHash
        { cfg with agent := some agentAddress } actionType action nonce).map
        (fun s => s.agent) =
      (send_l1_action keccak msgpackNamed toJsonValue signHash
        { cfg with agent := none } actionType action nonce).map (fun s => s.agent)) ∧
    ((send_l1_action keccak msgpackNamed toJsonValue signHash
        { cfg with agent := some agentAddress } actionType action nonce).map
        (fun s => s.finalAction) =
      (send_l1_action keccak msgpackNamed toJsonValue signHash
        { cfg with agent := none } actionType action nonce).map (fun s =>
        Json.obj [("type", Json.str "agent"),
                  ("agentAddress", Json.str (address_hex agentAddress)),
                  ("agentAction", s.finalAction),
                  ("source", Json.str s.agent.source)])) := by
  unfold send_l1_action
  dsimp only
  cases hash_action keccak msgpackNamed actionType action nonce cfg.vaultAddress with
  | error e => exact ⟨rfl, rfl, rfl⟩
  | ok connectionId => exact ⟨rfl, rfl, rfl⟩

/-- Helper: dropWhile skips over a leading block that satisfies the
predicate entirely. -/
theorem dropWhile_append_of_all {p : Char → Bool} (l1 l2 : List Char)
    (h : ∀ c ∈ l1, p c = true) :
    (l1 ++ l2).dropWhile p = l2.dropWhile p := by
  induction l1 with
  | nil => rfl
  | cons x xs ih =>
    have hx : p x = true := h x (List.mem_cons_self x xs)
    simp only [List.cons_append, List.dropWhile_cons, hx, if_true]
    exact ih (fun c hc => h c (List.mem_cons_of_mem x hc))

/-- Helper: when dropWhile stops inside the first block, appending after
that block appends after the result. -/
theorem dropWhile_append_of_ne_nil {p : Char → Bool} (l1 l2 : List Char)
    (h : l1.dropWhile p ≠ []) :
    (l1 ++ l2).dropWhile p = l1.dropWhile p ++ l2 := by
  induction l1 with
  | nil => simp [List.dropWhile] at h
  | cons x xs ih =>
    cases hpx : p x with
    | true =>
      rw [List.dropWhile_cons, hpx] at h
      simp only [if_true] at h
      simp only [List.cons_append, List.dropWhile_cons, hpx, if_true]
      exact ih h
    | false =>
      simp only [List.cons_append, List.dropWhile_cons, hpx]
      simp

/-- Helper: the head of a nonempty dropWhile result fails the predicate. -/
theorem head_dropWhile_false {p : Char → Bool} :
    ∀ (l : List Char) (c : Char) (rest : List Char),
      l.dropWhile p = c :: rest → p c = false
  | [], c, rest, h => by simp [List.dropWhile] at h
  | x :: xs, c, rest, h => by
    cases hpx : p x with
    | true =>
      rw [List.dropWhile_cons, hpx] at h
      simp only [if_true] at h
      exact head_dropWhile_false xs c rest h
    | false =>
      rw [List.dropWhile_cons, hpx] at h
      simp at h
      obtain ⟨rfl, -⟩ := h
      exact hpx

/-- Helper: on an input with a fractional part that is all zero digits,
the formatter strips the whole fractional part and the dot, then
canonicalizes "-0". -/
theorem format_all_zeros (s : String) (a f : List Char)
    (hs : s.data = a ++ '.' :: f) (hall : ∀ c ∈ f, (c == '0') = true) :
    format_float_string s = if String.mk a = "-0" then "0" else String.mk a := by
  simp only [format_float_string]
  rw [hs]
  rw [show (a ++ '.' :: f).reverse = f.reverse ++ '.' :: a.reverse from by simp]
  rw [dropWhile_append_of_all _ _ (fun c hc => hall c (List.mem_reverse.mp hc))]
  rw [show List.dropWhile (fun c => c == '0') ('.' :: a.reverse) = '.' :: a.reverse from by
    simp [List.dropWhile_cons]]
  rw [show ('.' :: a.reverse).reverse = a ++ ['.'] from by simp]
  simp only [List.getLast?_concat, List.dropLast_concat, eq_self_iff_true, if_true]

/-- Helper: on an input whose fractional part has a rightmost nonzero
character c, the formatter keeps everything up to and including c. -/
theorem format_some_nonzero (s : String) (a f : List Char) (c : Char) (g : List Char)
    (hs : s.data = a ++ '.' :: f) (hfdot : '.' ∉ f)
    (hcg : f.reverse.dropWhile (fun x => x == '0') = c :: g) :
    format_float_string s = String.mk ((a ++ '.' :: g.reverse) ++ [c]) := by
  have hcne : c ≠ '.' := by
    have hmem : c ∈ f.reverse.dropWhile (fun x => x == '0') := by
      rw [hcg]; exact List.mem_cons_self c g
    have hmem2 : c ∈ f := List.mem_reverse.mp ((List.dropWhile_sublist _).subset hmem)
    intro hceq
    exact hfdot (hceq ▸ hmem2)
  simp only [format_float_string]
  rw [hs]
  rw [show (a ++ '.' :: f).reverse = f.reverse ++ '.' :: a.reverse from by simp]
  rw [dropWhile_append_of_ne_nil _ _ (by rw [hcg]; exact List.cons_ne_nil c g)]
  rw [hcg]
  rw [show ((c :: g) ++ '.' :: a.reverse).reverse = (a ++ '.' :: g.reverse) ++ [c] from by
    simp]
  simp only [List.getLast?_concat]
  rw [if_neg (show ¬((some c : Option Char) = some '.') from by simpa using hcne)]
  have hne : String.mk ((a ++ '.' :: g.reverse) ++ [c]) ≠ "-0" := by
    intro hx
    have hdata : (a ++ '.' :: g.reverse) ++ [c] = "-0".data := by
      simpa using congrArg String.data hx
    have hdotmem : ('.' : Char) ∈ "-0".data := by
      rw [← hdata]; simp
    exact absurd hdotmem (by decide)
  rw [if_neg hne]

/-- Claim C9: on inputs of the fixed-point shape the source produces
(an integer part free of dots followed by a dot and a fractional block
free of dots), the formatter's result never ends in '0' while still
containing a decimal point, never ends in '.', and the concrete examples
format as 50000, 0.01, 0 (for negative zero) and 1.5. -/
theorem format_float_claim (s : String) (a f : List Char)
    (hs : s.data = a ++ '.' :: f) (hadot : '.' ∉ a) (hfdot : '.' ∉ f) :
    (('.' ∈ (format_float_string s).data →
        (format_float_string s).data.getLast? ≠ some '0') ∧
      (format_float_string s).data.getLast? ≠ some '.') ∧
    format_float_string "50000.00000000" = "50000" ∧
    format_float_string "0.01000000" = "0.01" ∧
    format_float_string "-0.00000000" = "0" ∧
    format_float_string "1.50000000" = "1.5" := by
  refine ⟨?_, by decide, by decide, by decide, by decide⟩
  by_cases hz : f.reverse.dropWhile (fun x => x == '0') = []
  · have hall : ∀ c ∈ f, (c == '0') = true := fun c hc =>
      (List.dropWhile_eq_nil_iff.mp hz) c (List.mem_reverse.mpr hc)
    rw [format_all_zeros s a f hs hall]
    by_cases hm : String.mk a = "-0"
    · rw [if_pos hm]
      refine ⟨fun hdot => absurd hdot (by decide), by decide⟩
    · rw [if_neg hm]
      refine ⟨fun hdot => absurd hdot hadot, ?_⟩
      intro hl
      exact hadot (List.mem_of_mem_getLast? hl)
  · obtain ⟨c, g, hcg⟩ := List.exists_cons_of_ne_nil hz
    have hc0 : (c == '0') = false := head_dropWhile_false f.reverse c g hcg
    have hcne : c ≠ '.' := by
      have hmem : c ∈ f.reverse.dropWhile (fun x => x == '0') := by
        rw [hcg]; exact List.mem_cons_self c g
      have hmem2 : c ∈ f := List.mem_reverse.mp ((List.dropWhile_sublist _).subset hmem)
      intro hceq
      exact hfdot (hceq ▸ hmem2)
    rw [format_some_nonzero s a f c g hs hfdot hcg]
    constructor
    · intro _
      show ((a ++ '.' :: g.reverse) ++ [c]).getLast? ≠ some '0'
      rw [List.getLast?_concat]
      simp only [ne_eq, Option.some.injEq]
      intro hceq
      rw [hceq] at hc0
      simp at hc0
    · show ((a ++ '.' :: g.reverse) ++ [c]).getLast? ≠ some '.'
      rw [List.getLast?_concat]
      simpa using hcne

/-- Witness for the C9 theorem at the rendering of 1.5. -/
theorem format_float_claim_witness :
    ("1.50000000".data = ['1'] ++ '.' :: ['5', '0', '0', '0', '0', '0', '0', '0']) ∧
    ('.' ∉ ['1']) ∧ ('.' ∉ ['5', '0', '0', '0', '0', '0', '0', '0']) ∧
    ((('.' ∈ (format_float_string "1.50000000").data →
        (format_float_string "1.50000000").data.getLast? ≠ some '0') ∧
      (format_float_string "1.50000000").data.getLast? ≠ some '.') ∧
    format_float_string "50000.00000000" = "50000" ∧
    format_float_string "0.01000000" = "0.01" ∧
    format_float_string "-0.00000000" = "0" ∧
    format_float_string "1.50000000" = "1.5") :=
  ⟨by decide, by decide, by decide,
   format_float_claim "1.50000000" ['1'] ['5', '0', '0', '0', '0', '0', '0', '0']
     (by decide) (by decide) (by decide)⟩
